import Mathlib

/-!
Verification development for the GrabCraft build scraper
(`src/scraper/scraper.py`).

The scraper is a single-threaded crawl-and-resume engine.  We give a
shallow embedding of its core: the data records it builds, the
checkpoint / metadata persistence, the image-download loop, and the
`scrape` orchestrator.  HTML fetching and parsing are external
collaborators; they are modelled by their *parsed outcomes*: a run's
input is the list of categories the home page parses to, each category
carrying the items its listing page and their detail pages parse to,
plus a network oracle `net : String → Bool` giving the success of each
image download.  Timestamp fields (`scraped_at`, checkpoint
`timestamp`) are elided: no property depends on them.

Disk traffic is recorded as an explicit `Event` trace (image writes,
full-rewrite metadata saves, checkpoint saves, checkpoint clears), and
the on-disk state is only ever updated by applying events, so the trace
is an exact record of the run's file operations.  Interrupting a run
after an item is re-created by replaying the trace up to that item's
checkpoint save, exactly as a crash would leave the disk.
-/

/-- Outcome of reading a file from disk: missing, present but unparseable
(the `json.load` try/except), or parsed to a value. -/
inductive FileRead (α : Type) where
  | missing
  | corrupt
  | ok (val : α)
deriving DecidableEq, Repr

/-- Checkpoint object written by `_save_checkpoint` (scraper.py:80-95):
`{current_category_idx, current_build_idx, total_categories,
total_builds_processed}`; the `timestamp` field is elided. -/
structure Checkpoint where
  current_category_idx : Nat
  current_build_idx : Nat
  total_categories : Nat
  total_builds_processed : Nat
deriving DecidableEq, Repr

/-- A build record as accumulated by the scraper: the dict produced by
`_extract_build_info` (title, build_url, category_url, tags) merged with
the detail-page fields (`tags`, `image_urls`, scraper.py:254-255) and the
download fields (`local_image_paths`, `images_count`, `build_directory`,
scraper.py:363-402).  `raises` is ghost input: it marks the item whose
processing raises inside the per-build `try` of `scrape`
(scraper.py:502-531). -/
structure BuildInfo where
  title : String
  build_url : String
  category_url : String
  tags : List String
  image_urls : List String
  raises : Bool
  local_image_paths : List String := []
  images_count : Nat := 0
  build_directory : String := ""
deriving DecidableEq, Repr

/-- Parsed outcome of one item on a category listing page together with
its detail page.  `url = none` models an item whose detail link cannot be
resolved (`_extract_build_info` returns `None`, scraper.py:298-300);
`tags` / `image_urls` are what `_extract_images_and_tags` parses (empty on
a fetch failure or missing markup, scraper.py:317-354). -/
structure SrcItem where
  title : String
  url : Option String
  tags : List String
  image_urls : List String
  raises : Bool
deriving DecidableEq, Repr

/-- Parsed outcome of one category: its URL, its items, and a ghost flag
`fails` marking a category whose processing raises inside the
per-category `try` of `scrape` (scraper.py:496-536).  A category page
whose fetch fails yields no builds and is modelled by `items = []`
(scraper.py:226-228). -/
structure SrcCategory where
  url : String
  fails : Bool
  items : List SrcItem
deriving DecidableEq, Repr

/-- The `results` summary dict of `scrape` (scraper.py:457-464);
`timestamp` elided.  The Python float average is modelled over `ℚ`. -/
structure Results where
  total_builds : Nat := 0
  successful_builds : Nat := 0
  failed_builds : Nat := 0
  total_images_downloaded : Nat := 0
  average_images_per_build : ℚ := 0
deriving DecidableEq, Repr

/-- One disk operation performed by the scraper. -/
inductive Event where
  | writeImage (path : String)
  | saveMetadata (md : List BuildInfo)
  | saveCheckpoint (cp : Checkpoint)
  | clearCheckpoint
deriving DecidableEq, Repr

/-- On-disk state: the metadata file (a corrupt or missing file is
identified with `[]`, the value every reader of it produces, spec §5),
the checkpoint file, and the set of image files already written. -/
structure Disk where
  metadataFile : List BuildInfo := []
  checkpointFile : Option Checkpoint := none
  images : List String := []
deriving DecidableEq, Repr

def applyEvent (d : Disk) : Event → Disk
  | .writeImage p => { d with images := d.images ++ [p] }
  | .saveMetadata m => { d with metadataFile := m }
  | .saveCheckpoint c => { d with checkpointFile := some c }
  | .clearCheckpoint => { d with checkpointFile := none }

/-- Replay a trace of disk operations over an initial disk. -/
def replay (d : Disk) (evs : List Event) : Disk := evs.foldl applyEvent d

/-- In-memory + on-disk state of one `scrape` call, with the full trace
of disk operations it has performed. -/
structure ScrapeState where
  results : Results := {}
  metadata : List BuildInfo := []
  disk : Disk := {}
  events : List Event := []
deriving DecidableEq, Repr

/-- Append disk operations: the disk is updated exactly by the emitted
events, so `events` is a faithful trace. -/
def emits (st : ScrapeState) (es : List Event) : ScrapeState :=
  { st with disk := replay st.disk es, events := st.events ++ es }

/-- Model of `_load_checkpoint` (scraper.py:69-78): a missing or
unparseable checkpoint file yields the empty checkpoint (`{}` in Python,
`none` here); errors never propagate. -/
def load_checkpoint : FileRead Checkpoint → Option Checkpoint
  | .ok c => some c
  | _ => none

/-- Model of `_load_metadata` (scraper.py:124-133): a missing or
unparseable metadata file yields `[]`; errors never propagate. -/
def load_metadata : FileRead (List BuildInfo) → List BuildInfo
  | .ok m => m
  | _ => []

/-- Model of `_save_checkpoint` (scraper.py:80-95): overwrite the
checkpoint file with the current cursor and `len(self.metadata)`. -/
def save_checkpoint (category_idx build_idx total_categories : Nat)
    (st : ScrapeState) : ScrapeState :=
  emits st [Event.saveCheckpoint
    ⟨category_idx, build_idx, total_categories, st.metadata.length⟩]

/-- Model of `_clear_checkpoint` (scraper.py:97-105). -/
def clear_checkpoint (st : ScrapeState) : ScrapeState :=
  emits st [Event.clearCheckpoint]

/-- Python `f"{n:0(width)d}"`. -/
def padNum (width n : Nat) : String :=
  let s := toString n
  String.mk (List.replicate (width - s.length) '0') ++ s

/-- The slug sanitizer of `download_all_images_for_build`
(scraper.py:375): keep alphanumerics, `_` and `-`. -/
def sanitizeSlug (s : String) : String :=
  String.mk (s.data.filter fun c => c.isAlphanum || c = '_' || c = '-')

/-- Root of the image tree, `output_dir/images` with the default
configuration (scraper.py:41-48). -/
def imagesRoot : String := "data/raw/images"

/-- `build_id` of scraper.py:374-375: `build_{idx:05d}_{title[:30]}`,
sanitized and capped at 50 characters. -/
def build_id_slug (build_idx : Nat) (title : String) : String :=
  (sanitizeSlug ("build_" ++ padNum 5 build_idx ++ "_" ++ title.take 30)).take 50

/-- Destination path of one image: `images/<slug>/image_{idx:03d}.jpg`
(scraper.py:383-384). -/
def image_path (slug : String) (img_idx : Nat) : String :=
  imagesRoot ++ "/" ++ slug ++ "/image_" ++ padNum 3 img_idx ++ ".jpg"

/-- Result of one acquisition attempt for one image. -/
structure AcqResult where
  fetches : Nat
  localPath : Option String
  wrote : Bool
deriving DecidableEq, Repr

/-- One iteration of the image loop of `download_all_images_for_build`
(scraper.py:380-399) together with `download_image` (scraper.py:415-443):
if the destination file already exists the network fetch is skipped and
the path is recorded; otherwise one fetch is performed and, on success
(`net url`, folding HTTP success and image decoding into the oracle), the
file is written and the path recorded; on failure nothing is written and
the loop continues. -/
def acquire_image (net : String → Bool) (fs : List String)
    (url path : String) : AcqResult :=
  if path ∈ fs then ⟨0, some path, false⟩
  else if net url then ⟨1, some path, true⟩
  else ⟨1, none, false⟩

/-- Aggregate result of the image loop for one build. -/
structure DlResult where
  localPaths : List String
  fs : List String
  fetches : Nat
  written : List String
deriving DecidableEq, Repr

/-- The `for img_idx, img_url in enumerate(image_urls)` loop of
`download_all_images_for_build` (scraper.py:380-399).  A per-image
failure only skips that image; the remaining URLs are still attempted. -/
def download_images_loop (net : String → Bool) (slug : String) :
    List String → Nat → List String → DlResult
  | [], _, fs => ⟨[], fs, 0, []⟩
  | url :: rest, img_idx, fs =>
    let path := image_path slug img_idx
    let a := acquire_image net fs url path
    let fs' := if a.wrote then fs ++ [path] else fs
    let r := download_images_loop net slug rest (img_idx + 1) fs'
    ⟨a.localPath.toList ++ r.localPaths, r.fs, a.fetches + r.fetches,
      (if a.wrote then [path] else []) ++ r.written⟩

/-- Outcome of `download_all_images_for_build` for one build. -/
structure DownloadOutcome where
  build : BuildInfo
  fs : List String
  fetches : Nat
  written : List String
deriving DecidableEq, Repr

/-- Model of `download_all_images_for_build` (scraper.py:356-413):
initialize `local_image_paths`/`images_count`, return early when the
build has no `build_url`, otherwise run the image loop under the build's
slug directory and set `images_count = len(local_image_paths)` and
`build_directory`. -/
def download_all_images_for_build (net : String → Bool) (fs : List String)
    (b : BuildInfo) (build_idx : Nat) : DownloadOutcome :=
  if b.build_url = "" then
    ⟨{ b with local_image_paths := [], images_count := 0 }, fs, 0, []⟩
  else
    let slug := build_id_slug build_idx b.title
    let r := download_images_loop net slug b.image_urls 0 fs
    ⟨{ b with local_image_paths := r.localPaths,
              images_count := r.localPaths.length,
              build_directory := imagesRoot ++ "/" ++ slug },
      r.fs, r.fetches, r.written⟩

/-- Model of `extract_builds_from_category` (scraper.py:216-276): drop
items without a resolvable detail URL (`_extract_build_info` returns
`None`), fetch each survivor's detail page, and discard any item whose
detail page yields no image URLs or no tags (scraper.py:247-252); the
survivors carry their tags and image URLs. -/
def extract_builds_from_category (cat : SrcCategory) : List BuildInfo :=
  cat.items.filterMap fun it =>
    match it.url with
    | none => none
    | some u =>
      if it.image_urls.isEmpty || it.tags.isEmpty then none
      else some { title := it.title, build_url := u, category_url := cat.url,
                  tags := it.tags, image_urls := it.image_urls,
                  raises := it.raises }

/-- Model of `get_category_urls` (scraper.py:178-214): the parsed
category links truncated to `max_categories` and deduplicated by URL,
keeping first occurrences.  A failed home fetch or zero parsed links both
yield `[]` (the raised exception is caught at scraper.py:210-213). -/
def dedup_categories (seen : List String) : List SrcCategory → List SrcCategory
  | [] => []
  | c :: cs =>
    if c.url ∈ seen then dedup_categories seen cs
    else c :: dedup_categories (c.url :: seen) cs

def get_category_urls (max_categories : Nat) (site : List SrcCategory) :
    List SrcCategory :=
  dedup_categories [] (site.take max_categories)

/-- The per-build body of `scrape` (scraper.py:501-531): bump
`total_builds`, download the images, count the build as successful
(`images_count > 0`) or failed, append it to the metadata store, save the
metadata file, save the checkpoint; on an exception, count the build as
failed and save the checkpoint at the current position. -/
def processBuild (net : String → Bool) (cat_idx build_idx n_cats : Nat)
    (b : BuildInfo) (st : ScrapeState) : ScrapeState :=
  let global_build_idx := st.results.total_builds
  let r1 := { st.results with total_builds := global_build_idx + 1 }
  if b.raises then
    save_checkpoint cat_idx build_idx n_cats
      { st with results := { r1 with failed_builds := r1.failed_builds + 1 } }
  else
    let d := download_all_images_for_build net st.disk.images b global_build_idx
    let r2 :=
      if 0 < d.build.images_count then
        { r1 with successful_builds := r1.successful_builds + 1,
                  total_images_downloaded :=
                    r1.total_images_downloaded + d.build.images_count }
      else { r1 with failed_builds := r1.failed_builds + 1 }
    let md' := st.metadata ++ [d.build]
    let st' := emits { st with results := r2, metadata := md' }
      (d.written.map Event.writeImage ++ [Event.saveMetadata md'])
    save_checkpoint cat_idx build_idx n_cats st'

/-- The `for build_idx, build in enumerate(builds)` loop of `scrape`. -/
def processBuilds (net : String → Bool) (cat_idx n_cats : Nat) :
    List BuildInfo → Nat → ScrapeState → ScrapeState
  | [], _, st => st
  | b :: bs, build_idx, st =>
    processBuilds net cat_idx n_cats bs (build_idx + 1)
      (processBuild net cat_idx build_idx n_cats b st)

/-- The per-category body of `scrape` (scraper.py:496-536): extract the
category's builds, truncate to `max_builds_per_category`, and process
them; a category-level exception saves a checkpoint at
`(cat_idx, 0)` and moves on. -/
def processCategory (net : String → Bool) (max_builds_per_category : Nat)
    (n_cats cat_idx : Nat) (cat : SrcCategory) (st : ScrapeState) : ScrapeState :=
  if cat.fails then save_checkpoint cat_idx 0 n_cats st
  else
    processBuilds net cat_idx n_cats
      ((extract_builds_from_category cat).take max_builds_per_category) 0 st

/-- The `for cat_idx in range(start_category_idx, len(category_urls))`
loop of `scrape` (scraper.py:492-536), recursing over the remaining
categories while carrying the current index. -/
def scrapeLoop (net : String → Bool) (max_builds_per_category n_cats : Nat) :
    List SrcCategory → Nat → ScrapeState → ScrapeState
  | [], _, st => st
  | cat :: rest, cat_idx, st =>
    scrapeLoop net max_builds_per_category n_cats rest (cat_idx + 1)
      (processCategory net max_builds_per_category n_cats cat_idx cat st)

/-- Python `round(x, 2)` on the images-per-build average; the float
rounding is modelled as exact rational rounding to two decimals. -/
def round2 (q : ℚ) : ℚ := (round (q * 100) : ℚ) / 100

/-- The tail of `scrape` (scraper.py:538-548): fill in the average when
at least one build succeeded, then clear the checkpoint. -/
def finalize (st : ScrapeState) : ScrapeState :=
  let r := st.results
  let r' :=
    if 0 < r.successful_builds then
      { r with average_images_per_build :=
          round2 ((r.total_images_downloaded : ℚ) / (r.successful_builds : ℚ)) }
    else r
  clear_checkpoint { st with results := r' }

/-- The metadata the run starts from: `scrape` reloads the metadata file
only when `resume` is set and a checkpoint was loaded
(scraper.py:467-474); otherwise the in-memory store starts empty. -/
def initialMetadata (resume : Bool) (cpRead : FileRead Checkpoint)
    (mdRead : FileRead (List BuildInfo)) : List BuildInfo :=
  if resume && (load_checkpoint cpRead).isSome then load_metadata mdRead else []

/-- The resume cursor: `current_category_idx` of the loaded checkpoint
when resuming, else `0` (scraper.py:476-480).  The saved
`current_build_idx` is not consulted. -/
def start_category_idx (resume : Bool) (cpRead : FileRead Checkpoint) : Nat :=
  if resume then
    match load_checkpoint cpRead with
    | some c => c.current_category_idx
    | none => 0
  else 0

/-- State at the top of `scrape`: zeroed counters except that
`total_builds` restarts from the reloaded metadata count when resuming
(scraper.py:471); the disk holds whatever the files currently parse to
plus the already-downloaded images. -/
def initialState (resume : Bool) (cpRead : FileRead Checkpoint)
    (mdRead : FileRead (List BuildInfo)) (fs0 : List String) : ScrapeState :=
  { results := { total_builds := (initialMetadata resume cpRead mdRead).length },
    metadata := initialMetadata resume cpRead mdRead,
    disk := { metadataFile := load_metadata mdRead,
              checkpointFile := load_checkpoint cpRead,
              images := fs0 },
    events := [] }

/-- Model of `Scraper.scrape` (scraper.py:445-548).  Inputs: the network
oracle, the two caps, the resume flag, the parsed site, the two file
reads and the pre-existing image files.  When no categories are found the
run returns immediately (scraper.py:487-489) without touching the disk;
otherwise the category loop runs from the resume cursor and the
checkpoint is cleared at the end. -/
def scrape (net : String → Bool) (max_categories max_builds_per_category : Nat)
    (resume : Bool) (site : List SrcCategory) (cpRead : FileRead Checkpoint)
    (mdRead : FileRead (List BuildInfo)) (fs0 : List String) : ScrapeState :=
  let cats := get_category_urls max_categories site
  let st0 := initialState resume cpRead mdRead fs0
  if cats.isEmpty then st0
  else
    let start := start_category_idx resume cpRead
    finalize (scrapeLoop net max_builds_per_category cats.length
      (cats.drop start) start st0)

/-- Take a trace up to and including its `k`-th checkpoint save.  Every
item attempt ends with exactly one checkpoint save, so replaying this
prefix reproduces the disk of a run killed right after fully processing
its `k`-th item. -/
def takeThroughCheckpoints : Nat → List Event → List Event
  | _, [] => []
  | k, e :: es =>
    match e with
    | .saveCheckpoint c =>
      match k with
      | 0 => []
      | 1 => [Event.saveCheckpoint c]
      | k' + 2 => Event.saveCheckpoint c :: takeThroughCheckpoints (k' + 1) es
    | _ =>
      match k with
      | 0 => []
      | _ + 1 => e :: takeThroughCheckpoints k es

/-- Disk state left by a crash right after the `k`-th item attempt of a
run whose full trace is `evs`. -/
def diskAfterInterrupt (init : Disk) (evs : List Event) (k : Nat) : Disk :=
  replay init (takeThroughCheckpoints k evs)

/-- What `_load_checkpoint` would see on the next start, given a disk. -/
def cpReadOfDisk (d : Disk) : FileRead Checkpoint :=
  match d.checkpointFile with
  | some c => FileRead.ok c
  | none => FileRead.missing

/-! ## Concrete fixtures used by the counterexamples and witnesses -/

/-- Network oracle under which every image download succeeds. -/
def netAll : String → Bool := fun _ => true

/-- Network oracle under which every image download fails. -/
def netNone : String → Bool := fun _ => false

/-- A site with one category holding two valid items. -/
def site1 : List SrcCategory :=
  [⟨"catA", false,
    [⟨"Castle", some "u1", ["t"], ["iu1"], false⟩,
     ⟨"Bridge", some "u2", ["t"], ["iu2"], false⟩]⟩]

/-- A fresh, uninterrupted run over `site1`. -/
def fullRun : ScrapeState :=
  scrape netAll 100 100 true site1 .missing .missing []

/-- The disk left behind when the fresh run over `site1` is killed right
after fully processing its first item. -/
def disk1 : Disk := diskAfterInterrupt {} fullRun.events 1

/-- The run that resumes from `disk1`. -/
def resumedRun : ScrapeState :=
  scrape netAll 100 100 true site1 (cpReadOfDisk disk1) (.ok disk1.metadataFile)
    disk1.images

/-- A site with one category holding one valid item whose single image
URL is `"iu1"`. -/
def site2 : List SrcCategory :=
  [⟨"catA", false, [⟨"Tower", some "u1", ["t"], ["iu1"], false⟩]⟩]

/-- Fresh run over `site2` in which every image download fails. -/
def run2 : ScrapeState := scrape netNone 100 100 true site2 .missing .missing []

/-- The spec §8 scenario: categories `[A, B]`, category A yielding
`i1(tags=[t1], images=[u1])` and `i2(tags=[], images=[u2])`. -/
def site3 : List SrcCategory :=
  [⟨"catA", false,
    [⟨"One", some "u1", ["t1"], ["iu1"], false⟩,
     ⟨"Two", some "u2", [], ["iu2"], false⟩]⟩,
   ⟨"catB", false, []⟩]

/-- Fresh run over the spec §8 scenario with all downloads succeeding. -/
def run3 : ScrapeState := scrape netAll 100 100 true site3 .missing .missing []

/-- Two successive acquisitions of the same `(url, path)` pair, the
second seeing the file system left by the first; returns the total
number of network fetches performed. -/
def acquireTwice (net : String → Bool) (fs : List String)
    (url path : String) : Nat :=
  let a1 := acquire_image net fs url path
  let fs1 := if a1.wrote then fs ++ [path] else fs
  let a2 := acquire_image net fs1 url path
  a1.fetches + a2.fetches

/-! ## Trace observations -/

/-- The `(current_category_idx, current_build_idx)` cursors of the
checkpoint saves of a trace, in order. -/
def cpCursors : List Event → List (Nat × Nat)
  | [] => []
  | .saveCheckpoint c :: es =>
    (c.current_category_idx, c.current_build_idx) :: cpCursors es
  | .saveMetadata _ :: es => cpCursors es
  | .writeImage _ :: es => cpCursors es
  | .clearCheckpoint :: es => cpCursors es

/-- Lexicographic order on checkpoint cursors. -/
def lexLe (a b : Nat × Nat) : Prop :=
  a.1 < b.1 ∨ (a.1 = b.1 ∧ a.2 ≤ b.2)

instance (a b : Nat × Nat) : Decidable (lexLe a b) := by
  unfold lexLe; infer_instance

/-- The cursor sequence produced by attempting `len` consecutive items of
category `cat_idx` starting at item index `j`. -/
def itemCursors (cat_idx : Nat) : Nat → Nat → List (Nat × Nat)
  | _, 0 => []
  | j, len + 1 => (cat_idx, j) :: itemCursors cat_idx (j + 1) len

/-- Length of the metadata file after a trace, starting from a file
holding `n` records. -/
def mdLenAfter : Nat → List Event → Nat
  | n, [] => n
  | _, .saveMetadata m :: es => mdLenAfter m.length es
  | n, .saveCheckpoint _ :: es => mdLenAfter n es
  | n, .writeImage _ :: es => mdLenAfter n es
  | n, .clearCheckpoint :: es => mdLenAfter n es

/-- Checks along a trace that every checkpoint save records no more
processed builds than the metadata file persisted at that moment: the
checkpoint is never ahead of the persisted metadata. -/
def cpAheadOk : Nat → List Event → Bool
  | _, [] => true
  | _, .saveMetadata m :: es => cpAheadOk m.length es
  | n, .saveCheckpoint c :: es =>
    decide (c.total_builds_processed ≤ n) && cpAheadOk n es
  | n, .writeImage _ :: es => cpAheadOk n es
  | n, .clearCheckpoint :: es => cpAheadOk n es

/-- A build record carrying at least one tag and at least one discovered
image reference (the §3 discard invariant). -/
def GoodBuild (r : BuildInfo) : Prop := r.tags ≠ [] ∧ r.image_urls ≠ []

/-- Invariant carried through a run, relating the trace to the in-memory
store and the metadata file: the replayed metadata-file length matches the
disk, the in-memory store is never longer than the persisted file, and no
checkpoint save so far claimed more persisted builds than the file held. -/
def StInv (md0 : Nat) (st : ScrapeState) : Prop :=
  mdLenAfter md0 st.events = st.disk.metadataFile.length
  ∧ st.metadata.length ≤ st.disk.metadataFile.length
  ∧ cpAheadOk md0 st.events = true

/-- The record the fresh `site1` run persists for its first item. -/
def castleRecord : BuildInfo :=
  { title := "Castle", build_url := "u1", category_url := "catA",
    tags := ["t"], image_urls := ["iu1"], raises := false,
    local_image_paths := ["data/raw/images/build_00000_Castle/image_000.jpg"],
    images_count := 1,
    build_directory := "data/raw/images/build_00000_Castle" }

/-- A site exercising failure isolation: the second item of the first
category raises, and the whole second category raises. -/
def site7 : List SrcCategory :=
  [⟨"catA", false,
    [⟨"A", some "u1", ["t"], ["i1"], false⟩,
     ⟨"B", some "u2", ["t"], ["i2"], true⟩,
     ⟨"C", some "u3", ["t"], ["i3"], false⟩]⟩,
   ⟨"catF", true, [⟨"D", some "u4", ["t"], ["i4"], false⟩]⟩,
   ⟨"catC", false, [⟨"E", some "u5", ["t"], ["i5"], false⟩]⟩]

/-- Fresh run over `site7` with every download succeeding. -/
def run7 : ScrapeState := scrape netAll 100 100 true site7 .missing .missing []

/-! ## Trace lemmas -/

theorem cpCursors_append : ∀ (l₁ l₂ : List Event),
    cpCursors (l₁ ++ l₂) = cpCursors l₁ ++ cpCursors l₂
  | [], _ => rfl
  | .saveCheckpoint c :: es, l₂ => by
    simp [cpCursors, cpCursors_append es l₂]
  | .saveMetadata m :: es, l₂ => by
    simp [cpCursors, cpCursors_append es l₂]
  | .writeImage p :: es, l₂ => by
    simp [cpCursors, cpCursors_append es l₂]
  | .clearCheckpoint :: es, l₂ => by
    simp [cpCursors, cpCursors_append es l₂]

theorem cpCursors_writeImages : ∀ (l : List String),
    cpCursors (l.map Event.writeImage) = []
  | [] => rfl
  | _ :: l => by simp [cpCursors, cpCursors_writeImages l]

theorem cpCursors_processBuild (net : String → Bool) (c j n : Nat)
    (b : BuildInfo) (st : ScrapeState) :
    cpCursors (processBuild net c j n b st).events
      = cpCursors st.events ++ [(c, j)] := by
  unfold processBuild
  by_cases hb : b.raises
  · simp [hb, save_checkpoint, emits, cpCursors_append, cpCursors]
  · simp [hb, save_checkpoint, emits, cpCursors_append, cpCursors,
      cpCursors_writeImages]

theorem cpCursors_processBuilds (net : String → Bool) (c n : Nat) :
    ∀ (bs : List BuildInfo) (j : Nat) (st : ScrapeState),
      cpCursors (processBuilds net c n bs j st).events
        = cpCursors st.events ++ itemCursors c j bs.length
  | [], j, st => by simp [processBuilds, itemCursors]
  | b :: bs, j, st => by
    rw [processBuilds, cpCursors_processBuilds net c n bs (j + 1) _,
      cpCursors_processBuild]
    simp [itemCursors]

theorem cpCursors_processCategory (net : String → Bool)
    (maxB n c : Nat) (cat : SrcCategory) (st : ScrapeState) :
    cpCursors (processCategory net maxB n c cat st).events
      = cpCursors st.events
        ++ (if cat.fails then [(c, 0)]
            else itemCursors c 0
              ((extract_builds_from_category cat).take maxB).length) := by
  unfold processCategory
  by_cases h : cat.fails
  · simp [h, save_checkpoint, emits, cpCursors_append, cpCursors]
  · simp [h, cpCursors_processBuilds]

theorem itemCursors_fst (c : Nat) :
    ∀ (j len : Nat), ∀ p ∈ itemCursors c j len, p.1 = c
  | _, 0, p, hp => by simp [itemCursors] at hp
  | j, len + 1, p, hp => by
    rw [itemCursors] at hp
    rcases List.mem_cons.mp hp with rfl | hp'
    · rfl
    · exact itemCursors_fst c (j + 1) len p hp'

theorem chain'_itemCursors (c : Nat) :
    ∀ (j len : Nat), List.Chain' lexLe (itemCursors c j len)
  | _, 0 => List.chain'_nil
  | j, 1 => by simp [itemCursors]
  | j, len + 2 => by
    rw [itemCursors, itemCursors]
    rw [List.chain'_cons]
    refine ⟨Or.inr ⟨rfl, Nat.le_succ j⟩, ?_⟩
    rw [← itemCursors]
    exact chain'_itemCursors c (j + 1) (len + 1)

theorem categoryBlock_fst (maxB c : Nat) (cat : SrcCategory) :
    ∀ p ∈ (if cat.fails then [(c, 0)]
           else itemCursors c 0
             ((extract_builds_from_category cat).take maxB).length), p.1 = c := by
  by_cases h : cat.fails
  · simp [h]
  · simp only [h, if_false]
    exact itemCursors_fst c 0 _

theorem chain'_categoryBlock (maxB c : Nat) (cat : SrcCategory) :
    List.Chain' lexLe (if cat.fails then [(c, 0)]
      else itemCursors c 0
        ((extract_builds_from_category cat).take maxB).length) := by
  by_cases h : cat.fails
  · simp [h]
  · simp only [h, if_false]
    exact chain'_itemCursors c 0 _

theorem scrapeLoop_chain (net : String → Bool) (maxB n : Nat) :
    ∀ (cats : List SrcCategory) (c : Nat) (st : ScrapeState),
      List.Chain' lexLe (cpCursors st.events) →
      (∀ p ∈ cpCursors st.events, p.1 < c) →
      List.Chain' lexLe (cpCursors (scrapeLoop net maxB n cats c st).events)
        ∧ ∀ p ∈ cpCursors (scrapeLoop net maxB n cats c st).events,
            p.1 < c + cats.length
  | [], c, st, hchain, hlt => by
    refine ⟨hchain, fun p hp => ?_⟩
    simpa using hlt p hp
  | cat :: rest, c, st, hchain, hlt => by
    rw [scrapeLoop]
    have hcur := cpCursors_processCategory net maxB n c cat st
    have hchain' :
        List.Chain' lexLe (cpCursors (processCategory net maxB n c cat st).events) := by
      rw [hcur]
      refine hchain.append (chain'_categoryBlock maxB c cat) ?_
      intro x hx y hy
      have hxlt : x.1 < c := hlt x (List.mem_of_mem_getLast? hx)
      have hyc : y.1 = c := categoryBlock_fst maxB c cat y (List.mem_of_mem_head? hy)
      exact Or.inl (hyc ▸ hxlt)
    have hlt' :
        ∀ p ∈ cpCursors (processCategory net maxB n c cat st).events, p.1 < c + 1 := by
      rw [hcur]
      intro p hp
      rcases List.mem_append.mp hp with hp' | hp'
      · exact Nat.lt_succ_of_lt (hlt p hp')
      · exact Nat.lt_succ_of_le (Nat.le_of_eq (categoryBlock_fst maxB c cat p hp'))
    have ih := scrapeLoop_chain net maxB n rest (c + 1)
      (processCategory net maxB n c cat st) hchain' hlt'
    refine ⟨ih.1, fun p hp => ?_⟩
    have := ih.2 p hp
    simpa [Nat.add_comm, Nat.add_left_comm, Nat.add_assoc, List.length_cons] using
      Nat.lt_of_lt_of_le this (by omega)

theorem replay_append (d : Disk) (l₁ l₂ : List Event) :
    replay d (l₁ ++ l₂) = replay (replay d l₁) l₂ :=
  List.foldl_append ..

theorem mdLenAfter_append : ∀ (n : Nat) (l₁ l₂ : List Event),
    mdLenAfter n (l₁ ++ l₂) = mdLenAfter (mdLenAfter n l₁) l₂
  | _, [], _ => rfl
  | n, .saveMetadata m :: es, l₂ => by
    simp [mdLenAfter, mdLenAfter_append m.length es l₂]
  | n, .saveCheckpoint c :: es, l₂ => by
    simp [mdLenAfter, mdLenAfter_append n es l₂]
  | n, .writeImage p :: es, l₂ => by
    simp [mdLenAfter, mdLenAfter_append n es l₂]
  | n, .clearCheckpoint :: es, l₂ => by
    simp [mdLenAfter, mdLenAfter_append n es l₂]

theorem cpAheadOk_append : ∀ (n : Nat) (l₁ l₂ : List Event),
    cpAheadOk n (l₁ ++ l₂)
      = (cpAheadOk n l₁ && cpAheadOk (mdLenAfter n l₁) l₂)
  | _, [], _ => by simp [cpAheadOk, mdLenAfter]
  | n, .saveMetadata m :: es, l₂ => by
    simp [cpAheadOk, mdLenAfter, cpAheadOk_append m.length es l₂]
  | n, .saveCheckpoint c :: es, l₂ => by
    simp [cpAheadOk, mdLenAfter, cpAheadOk_append n es l₂, Bool.and_assoc]
  | n, .writeImage p :: es, l₂ => by
    simp [cpAheadOk, mdLenAfter, cpAheadOk_append n es l₂]
  | n, .clearCheckpoint :: es, l₂ => by
    simp [cpAheadOk, mdLenAfter, cpAheadOk_append n es l₂]

theorem mdLenAfter_writeImages (n : Nat) : ∀ (l : List String),
    mdLenAfter n (l.map Event.writeImage) = n
  | [] => rfl
  | _ :: l => by simp [mdLenAfter, mdLenAfter_writeImages n l]

theorem cpAheadOk_writeImages (n : Nat) : ∀ (l : List String),
    cpAheadOk n (l.map Event.writeImage) = true
  | [] => rfl
  | _ :: l => by simp [cpAheadOk, cpAheadOk_writeImages n l]

theorem stInv_processBuild (net : String → Bool) (c j n md0 : Nat)
    (b : BuildInfo) (st : ScrapeState) (h : StInv md0 st) :
    StInv md0 (processBuild net c j n b st) := by
  obtain ⟨h1, h2, h3⟩ := h
  unfold processBuild
  by_cases hb : b.raises
  · simp only [hb, if_true]
    refine ⟨?_, ?_, ?_⟩ <;>
      simp [save_checkpoint, emits, replay, applyEvent, mdLenAfter_append,
        mdLenAfter, cpAheadOk_append, cpAheadOk, h1, h2, h3]
  · simp only [hb, if_false]
    refine ⟨?_, ?_, ?_⟩ <;>
      simp [save_checkpoint, emits, replay_append, replay, applyEvent,
        mdLenAfter_append, mdLenAfter, cpAheadOk_append, cpAheadOk,
        mdLenAfter_writeImages, cpAheadOk_writeImages, h1, h2, h3]

theorem stInv_processBuilds (net : String → Bool) (c n md0 : Nat) :
    ∀ (bs : List BuildInfo) (j : Nat) (st : ScrapeState), StInv md0 st →
      StInv md0 (processBuilds net c n bs j st)
  | [], _, _, h => h
  | b :: bs, j, st, h =>
    stInv_processBuilds net c n md0 bs (j + 1) _
      (stInv_processBuild net c j n md0 b st h)

theorem stInv_processCategory (net : String → Bool) (maxB n c md0 : Nat)
    (cat : SrcCategory) (st : ScrapeState) (h : StInv md0 st) :
    StInv md0 (processCategory net maxB n c cat st) := by
  obtain ⟨h1, h2, h3⟩ := h
  unfold processCategory
  by_cases hf : cat.fails
  · simp only [hf, if_true]
    refine ⟨?_, ?_, ?_⟩ <;>
      simp [save_checkpoint, emits, replay, applyEvent, mdLenAfter_append,
        mdLenAfter, cpAheadOk_append, cpAheadOk, h1, h2, h3]
  · simp only [hf, if_false]
    exact stInv_processBuilds net c n md0 _ 0 st ⟨h1, h2, h3⟩

theorem stInv_scrapeLoop (net : String → Bool) (maxB n md0 : Nat) :
    ∀ (cats : List SrcCategory) (c : Nat) (st : ScrapeState), StInv md0 st →
      StInv md0 (scrapeLoop net maxB n cats c st)
  | [], _, _, h => h
  | cat :: rest, c, st, h =>
    stInv_scrapeLoop net maxB n md0 rest (c + 1) _
      (stInv_processCategory net maxB n c md0 cat st h)

theorem stInv_finalize (md0 : Nat) (st : ScrapeState) (h : StInv md0 st) :
    StInv md0 (finalize st) := by
  obtain ⟨h1, h2, h3⟩ := h
  refine ⟨?_, ?_, ?_⟩ <;>
    simp [finalize, clear_checkpoint, emits, replay, applyEvent,
      mdLenAfter_append, mdLenAfter, cpAheadOk_append, cpAheadOk, h1, h2, h3]

theorem stInv_initialState (resume : Bool) (cpRead : FileRead Checkpoint)
    (mdRead : FileRead (List BuildInfo)) (fs0 : List String) :
    StInv (load_metadata mdRead).length
      (initialState resume cpRead mdRead fs0) := by
  refine ⟨rfl, ?_, rfl⟩
  simp only [initialState, initialMetadata]
  by_cases h : resume && (load_checkpoint cpRead).isSome <;> simp [h]

theorem stInv_scrape (net : String → Bool)
    (maxC maxB : Nat) (resume : Bool) (site : List SrcCategory)
    (cpRead : FileRead Checkpoint) (mdRead : FileRead (List BuildInfo))
    (fs0 : List String) :
    StInv (load_metadata mdRead).length
      (scrape net maxC maxB resume site cpRead mdRead fs0) := by
  unfold scrape
  by_cases h : (get_category_urls maxC site).isEmpty
  · simpa [h] using stInv_initialState resume cpRead mdRead fs0
  · simp only [h, if_false]
    exact stInv_finalize _ _ (stInv_scrapeLoop net maxB _ _ _ _ _
      (stInv_initialState resume cpRead mdRead fs0))

/-! ## Metadata suffix (discard invariant) -/

theorem download_preserves_fields (net : String → Bool) (fs : List String)
    (b : BuildInfo) (g : Nat) :
    (download_all_images_for_build net fs b g).build.tags = b.tags
    ∧ (download_all_images_for_build net fs b g).build.image_urls = b.image_urls := by
  unfold download_all_images_for_build
  by_cases h : b.build_url = "" <;> simp [h]

theorem extract_goodBuild (cat : SrcCategory) :
    ∀ b ∈ extract_builds_from_category cat, GoodBuild b := by
  intro b hb
  unfold extract_builds_from_category at hb
  rcases List.mem_filterMap.mp hb with ⟨it, _, hf⟩
  rcases hu : it.url with _ | u
  · rw [hu] at hf; cases hf
  · rw [hu] at hf
    dsimp only at hf
    by_cases he : (it.image_urls.isEmpty || it.tags.isEmpty) = true
    · rw [if_pos he] at hf; cases hf
    · rw [if_neg he] at hf
      injection hf with hf
      subst hf
      simp only [Bool.or_eq_true, not_or, Bool.not_eq_true,
        List.isEmpty_eq_false] at he
      exact ⟨he.2, he.1⟩

theorem metadata_processBuild (net : String → Bool) (c j n : Nat)
    (b : BuildInfo) (st : ScrapeState) (hb : GoodBuild b) :
    ∃ t, (processBuild net c j n b st).metadata = st.metadata ++ t
      ∧ ∀ r ∈ t, GoodBuild r := by
  unfold processBuild
  by_cases h : b.raises
  · exact ⟨[], by simp [h, save_checkpoint, emits], by simp⟩
  · refine ⟨[(download_all_images_for_build net st.disk.images b
        st.results.total_builds).build], by simp [h, save_checkpoint, emits], ?_⟩
    intro r hr
    rw [List.mem_singleton] at hr
    subst hr
    have hd := download_preserves_fields net st.disk.images b st.results.total_builds
    exact ⟨hd.1 ▸ hb.1, hd.2 ▸ hb.2⟩

theorem metadata_processBuilds (net : String → Bool) (c n : Nat) :
    ∀ (bs : List BuildInfo) (j : Nat) (st : ScrapeState),
      (∀ b ∈ bs, GoodBuild b) →
      ∃ t, (processBuilds net c n bs j st).metadata = st.metadata ++ t
        ∧ ∀ r ∈ t, GoodBuild r
  | [], _, st, _ => ⟨[], by simp [processBuilds], by simp⟩
  | b :: bs, j, st, hgood => by
    obtain ⟨t1, ht1, hg1⟩ :=
      metadata_processBuild net c j n b st (hgood b (List.mem_cons_self b bs))
    obtain ⟨t2, ht2, hg2⟩ :=
      metadata_processBuilds net c n bs (j + 1) (processBuild net c j n b st)
        (fun x hx => hgood x (List.mem_cons_of_mem b hx))
    refine ⟨t1 ++ t2, ?_, ?_⟩
    · rw [processBuilds, ht2, ht1, List.append_assoc]
    · intro r hr
      rcases List.mem_append.mp hr with hr' | hr'
      · exact hg1 r hr'
      · exact hg2 r hr'

theorem metadata_processCategory (net : String → Bool) (maxB n c : Nat)
    (cat : SrcCategory) (st : ScrapeState) :
    ∃ t, (processCategory net maxB n c cat st).metadata = st.metadata ++ t
      ∧ ∀ r ∈ t, GoodBuild r := by
  unfold processCategory
  by_cases hf : cat.fails
  · exact ⟨[], by simp [hf, save_checkpoint, emits], by simp⟩
  · simp only [hf, if_false]
    exact metadata_processBuilds net c n _ 0 st
      (fun b hb => extract_goodBuild cat b (List.mem_of_mem_take hb))

theorem metadata_scrapeLoop (net : String → Bool) (maxB n : Nat) :
    ∀ (cats : List SrcCategory) (c : Nat) (st : ScrapeState),
      ∃ t, (scrapeLoop net maxB n cats c st).metadata = st.metadata ++ t
        ∧ ∀ r ∈ t, GoodBuild r
  | [], _, st => ⟨[], by simp [scrapeLoop], by simp⟩
  | cat :: rest, c, st => by
    obtain ⟨t1, ht1, hg1⟩ := metadata_processCategory net maxB n c cat st
    obtain ⟨t2, ht2, hg2⟩ :=
      metadata_scrapeLoop net maxB n rest (c + 1)
        (processCategory net maxB n c cat st)
    refine ⟨t1 ++ t2, ?_, ?_⟩
    · rw [scrapeLoop, ht2, ht1, List.append_assoc]
    · intro r hr
      rcases List.mem_append.mp hr with hr' | hr'
      · exact hg1 r hr'
      · exact hg2 r hr'

theorem metadata_finalize (st : ScrapeState) : (finalize st).metadata = st.metadata := rfl

theorem metadata_scrape (net : String → Bool) (maxC maxB : Nat) (resume : Bool)
    (site : List SrcCategory) (cpRead : FileRead Checkpoint)
    (mdRead : FileRead (List BuildInfo)) (fs0 : List String) :
    ∃ t, (scrape net maxC maxB resume site cpRead mdRead fs0).metadata
        = initialMetadata resume cpRead mdRead ++ t
      ∧ ∀ r ∈ t, GoodBuild r := by
  unfold scrape
  by_cases h : (get_category_urls maxC site).isEmpty
  · exact ⟨[], by simp [h, initialState], by simp⟩
  · simp only [h, if_false]
    obtain ⟨t, ht, hg⟩ := metadata_scrapeLoop net maxB
      (get_category_urls maxC site).length
      ((get_category_urls maxC site).drop (start_category_idx resume cpRead))
      (start_category_idx resume cpRead)
      (initialState resume cpRead mdRead fs0)
    exact ⟨t, ht, hg⟩

/-! ## Counter partition -/

theorem counts_processBuild (net : String → Bool) (c j n : Nat)
    (b : BuildInfo) (st : ScrapeState)
    (h : st.results.successful_builds + st.results.failed_builds
      = st.results.total_builds) :
    (processBuild net c j n b st).results.successful_builds
        + (processBuild net c j n b st).results.failed_builds
      = (processBuild net c j n b st).results.total_builds := by
  unfold processBuild
  by_cases hb : b.raises
  · simp only [hb, if_true]
    simp [save_checkpoint, emits]
    omega
  · simp only [hb, if_false]
    by_cases hc : 0 < (download_all_images_for_build net st.disk.images b
        st.results.total_builds).build.images_count <;>
      simp [hc, save_checkpoint, emits] <;> omega

theorem counts_processBuilds (net : String → Bool) (c n : Nat) :
    ∀ (bs : List BuildInfo) (j : Nat) (st : ScrapeState),
      st.results.successful_builds + st.results.failed_builds
        = st.results.total_builds →
      (processBuilds net c n bs j st).results.successful_builds
          + (processBuilds net c n bs j st).results.failed_builds
        = (processBuilds net c n bs j st).results.total_builds
  | [], _, _, h => h
  | b :: bs, j, st, h =>
    counts_processBuilds net c n bs (j + 1) _
      (counts_processBuild net c j n b st h)

theorem counts_processCategory (net : String → Bool) (maxB n c : Nat)
    (cat : SrcCategory) (st : ScrapeState)
    (h : st.results.successful_builds + st.results.failed_builds
      = st.results.total_builds) :
    (processCategory net maxB n c cat st).results.successful_builds
        + (processCategory net maxB n c cat st).results.failed_builds
      = (processCategory net maxB n c cat st).results.total_builds := by
  unfold processCategory
  by_cases hf : cat.fails
  · simpa [hf, save_checkpoint, emits] using h
  · simp only [hf, if_false]
    exact counts_processBuilds net c n _ 0 st h

theorem counts_scrapeLoop (net : String → Bool) (maxB n : Nat) :
    ∀ (cats : List SrcCategory) (c : Nat) (st : ScrapeState),
      st.results.successful_builds + st.results.failed_builds
        = st.results.total_builds →
      (scrapeLoop net maxB n cats c st).results.successful_builds
          + (scrapeLoop net maxB n cats c st).results.failed_builds
        = (scrapeLoop net maxB n cats c st).results.total_builds
  | [], _, _, h => h
  | cat :: rest, c, st, h =>
    counts_scrapeLoop net maxB n rest (c + 1) _
      (counts_processCategory net maxB n c cat st h)

theorem counts_finalize (st : ScrapeState)
    (h : st.results.successful_builds + st.results.failed_builds
      = st.results.total_builds) :
    (finalize st).results.successful_builds
        + (finalize st).results.failed_builds
      = (finalize st).results.total_builds := by
  unfold finalize
  by_cases hs : 0 < st.results.successful_builds <;>
    simpa [hs, clear_checkpoint, emits] using h

/-! ## Clear-free traces of the category loop -/

theorem noclear_processBuild (net : String → Bool) (c j n : Nat)
    (b : BuildInfo) (st : ScrapeState) :
    ∃ es, (processBuild net c j n b st).events = st.events ++ es
      ∧ Event.clearCheckpoint ∉ es := by
  unfold processBuild
  by_cases hb : b.raises
  · refine ⟨[Event.saveCheckpoint ⟨c, j, n, st.metadata.length⟩],
      by simp [hb, save_checkpoint, emits], ?_⟩
    intro hmem
    rw [List.mem_singleton] at hmem
    cases hmem
  · refine ⟨(download_all_images_for_build net st.disk.images b
        st.results.total_builds).written.map Event.writeImage
      ++ [Event.saveMetadata (st.metadata
            ++ [(download_all_images_for_build net st.disk.images b
                  st.results.total_builds).build]),
          Event.saveCheckpoint ⟨c, j, n, (st.metadata
            ++ [(download_all_images_for_build net st.disk.images b
                  st.results.total_builds).build]).length⟩],
      by simp [hb, save_checkpoint, emits, List.append_assoc], ?_⟩
    intro hmem
    rcases List.mem_append.mp hmem with hm | hm
    · rcases List.mem_map.mp hm with ⟨p, _, hp⟩
      cases hp
    · rcases List.mem_cons.mp hm with hm' | hm'
      · cases hm'
      · rw [List.mem_singleton] at hm'
        cases hm'

theorem noclear_processBuilds (net : String → Bool) (c n : Nat) :
    ∀ (bs : List BuildInfo) (j : Nat) (st : ScrapeState),
      ∃ es, (processBuilds net c n bs j st).events = st.events ++ es
        ∧ Event.clearCheckpoint ∉ es
  | [], _, st => ⟨[], by simp [processBuilds], by simp⟩
  | b :: bs, j, st => by
    obtain ⟨e1, he1, hn1⟩ := noclear_processBuild net c j n b st
    obtain ⟨e2, he2, hn2⟩ :=
      noclear_processBuilds net c n bs (j + 1) (processBuild net c j n b st)
    refine ⟨e1 ++ e2, ?_, ?_⟩
    · rw [processBuilds, he2, he1, List.append_assoc]
    · intro hmem
      rcases List.mem_append.mp hmem with hm | hm
      · exact hn1 hm
      · exact hn2 hm

theorem noclear_processCategory (net : String → Bool) (maxB n c : Nat)
    (cat : SrcCategory) (st : ScrapeState) :
    ∃ es, (processCategory net maxB n c cat st).events = st.events ++ es
      ∧ Event.clearCheckpoint ∉ es := by
  unfold processCategory
  by_cases hf : cat.fails
  · refine ⟨[Event.saveCheckpoint ⟨c, 0, n, st.metadata.length⟩],
      by simp [hf, save_checkpoint, emits], ?_⟩
    intro hmem
    rw [List.mem_singleton] at hmem
    cases hmem
  · simp only [hf, if_false]
    exact noclear_processBuilds net c n _ 0 st

theorem noclear_scrapeLoop (net : String → Bool) (maxB n : Nat) :
    ∀ (cats : List SrcCategory) (c : Nat) (st : ScrapeState),
      ∃ es, (scrapeLoop net maxB n cats c st).events = st.events ++ es
        ∧ Event.clearCheckpoint ∉ es
  | [], _, st => ⟨[], by simp [scrapeLoop], by simp⟩
  | cat :: rest, c, st => by
    obtain ⟨e1, he1, hn1⟩ := noclear_processCategory net maxB n c cat st
    obtain ⟨e2, he2, hn2⟩ :=
      noclear_scrapeLoop net maxB n rest (c + 1)
        (processCategory net maxB n c cat st)
    refine ⟨e1 ++ e2, ?_, ?_⟩
    · rw [scrapeLoop, he2, he1, List.append_assoc]
    · intro hmem
      rcases List.mem_append.mp hmem with hm | hm
      · exact hn1 hm
      · exact hn2 hm

theorem finalize_events (st : ScrapeState) :
    (finalize st).events = st.events ++ [Event.clearCheckpoint] := rfl

theorem finalize_checkpointFile (st : ScrapeState) :
    (finalize st).disk.checkpointFile = none := rfl

/-- Claim C1: the spec asserts that interrupting a crawl after fully
processing item k and resuming yields the same metadata set as an
uninterrupted run, with no duplicate `detail_url` and re-work bounded to
one in-flight item.  The code violates this: `scrape` resumes at
`current_category_idx` and ignores the saved `current_build_idx`
(scraper.py:476-480), so the whole checkpointed category is reprocessed
and its already-persisted records are appended again.  Evaluated here:
a fresh run over `site1` yields records for `u1, u2`; the run interrupted
after its first item and resumed ends with `u1, u1, u2` — a duplicate
`detail_url`. -/
theorem C1_resume_rework_eval :
    resumedRun.metadata.map (fun r => r.build_url) = ["u1", "u1", "u2"]
    ∧ ¬ (resumedRun.metadata.map (fun r => r.build_url)).Nodup
    ∧ fullRun.metadata.map (fun r => r.build_url) = ["u1", "u2"] := by
  decide

/-- Claim C2 counterexample: in `run2` every download of the single valid
item fails, yet the record is still appended to the metadata store with
`local_image_paths = []` (scraper.py:512-519 appends unconditionally), so
the claim's `local_image_paths` conjunct is false for persisted records. -/
theorem C2_counterexample :
    run2.metadata.map (fun r => r.local_image_paths) = [[]]
    ∧ ¬ (∀ r ∈ run2.metadata, r.local_image_paths ≠ []) := by
  decide

/-- Claim C2 (amended): every record appended to the metadata store
during a run has at least one tag and at least one discovered image
reference; records failing this are discarded before persistence
(scraper.py:247-252).  The `local_image_paths` conjunct of the original
claim is dropped: a record whose downloads all fail is persisted with an
empty `local_image_paths` (see the counterexample). -/
theorem C2_appended_records_validated :
    ∀ (net : String → Bool) (maxC maxB : Nat) (resume : Bool)
      (site : List SrcCategory) (cpRead : FileRead Checkpoint)
      (mdRead : FileRead (List BuildInfo)) (fs0 : List String) (r : BuildInfo),
      r ∈ (scrape net maxC maxB resume site cpRead mdRead fs0).metadata.drop
          (initialMetadata resume cpRead mdRead).length →
      r.tags ≠ [] ∧ r.image_urls ≠ [] := by
  intro net maxC maxB resume site cpRead mdRead fs0 r hr
  obtain ⟨t, ht, hg⟩ := metadata_scrape net maxC maxB resume site cpRead mdRead fs0
  rw [ht, List.drop_left] at hr
  exact hg r hr

set_option maxRecDepth 8000 in
/-- Witness for C2: the record persisted by the fresh `site1` run
satisfies the amended invariant. -/
theorem C2_witness : castleRecord.tags ≠ [] ∧ castleRecord.image_urls ≠ [] :=
  C2_appended_records_validated netAll 100 100 true site1 .missing .missing []
    castleRecord (by decide)

/-- Claim C3 counterexample: on the spec's own scenario the run summary
is `total=1, successful=1, failed=0`, not the claimed
`total_items=2, successful_items=1, failed_items=1`: the discarded item
`i2` never reaches the per-build loop, so it is not counted at all
(scraper.py:247-252 discard happens before the counting loop at 501-516). -/
theorem C3_counterexample :
    run3.results.total_builds = 1 ∧ run3.results.failed_builds = 0
    ∧ ¬ (run3.results.total_builds = 2 ∧ run3.results.successful_builds = 1
          ∧ run3.results.failed_builds = 1) := by
  decide

/-- Claim C3 (amended): in the §8 scenario the run persists exactly one
record (`i1`) with `images_count = 1`, discards `i2`, and returns the
summary `total_builds = 1, successful_builds = 1, failed_builds = 0`:
a validation discard is counted neither in the total nor as failed. -/
theorem C3_scenario_amended :
    run3.metadata.map (fun r => r.title) = ["One"]
    ∧ run3.metadata.map (fun r => r.images_count) = [1]
    ∧ run3.results.total_builds = 1
    ∧ run3.results.successful_builds = 1
    ∧ run3.results.failed_builds = 0 := by
  decide

/-- Claim C4 counterexample: on the zero-categories path
(scraper.py:487-489) `scrape` returns before `_clear_checkpoint`.  A fresh
run with no categories ends with the checkpoint absent though the
traversal never ran; a resumed run with a checkpoint on disk and no
categories ends with the checkpoint still present.  Under either reading
of «completed all categories» one of the two runs refutes the claimed
if-and-only-if. -/
theorem C4_counterexample :
    (scrape netAll 100 100 true [] .missing .missing []).disk.checkpointFile = none
    ∧ (scrape netAll 100 100 true [] .missing .missing []).events = []
    ∧ get_category_urls 100 [] = []
    ∧ (scrape netAll 100 100 true [] (.ok ⟨0, 0, 3, 1⟩)
        (.ok []) []).disk.checkpointFile = some ⟨0, 0, 3, 1⟩
    ∧ (scrape netAll 100 100 true [] (.ok ⟨0, 0, 3, 1⟩) (.ok []) []).events = [] := by
  decide

/-- Claim C4 (amended): when at least one category is discovered, the
checkpoint is cleared exactly once, the clear is the last disk operation
of the run (hence after every category was visited), and the checkpoint
file is absent at the end; when zero categories are discovered the run
performs no disk operation and leaves the checkpoint file exactly as it
was loaded. -/
theorem C4_checkpoint_clear_amended :
    ∀ (net : String → Bool) (maxC maxB : Nat) (resume : Bool)
      (site : List SrcCategory) (cpRead : FileRead Checkpoint)
      (mdRead : FileRead (List BuildInfo)) (fs0 : List String),
      (get_category_urls maxC site ≠ [] →
        (scrape net maxC maxB resume site cpRead mdRead fs0).events.count
            Event.clearCheckpoint = 1
        ∧ (scrape net maxC maxB resume site cpRead mdRead fs0).events.getLast?
            = some Event.clearCheckpoint
        ∧ (scrape net maxC maxB resume site cpRead mdRead fs0).disk.checkpointFile
            = none)
      ∧ (get_category_urls maxC site = [] →
        (scrape net maxC maxB resume site cpRead mdRead fs0).events = []
        ∧ (scrape net maxC maxB resume site cpRead mdRead fs0).disk.checkpointFile
            = load_checkpoint cpRead) := by
  intro net maxC maxB resume site cpRead mdRead fs0
  by_cases h : (get_category_urls maxC site).isEmpty
  · have hnil := List.isEmpty_iff.mp h
    refine ⟨fun hne => absurd hnil hne, fun _ => ⟨?_, ?_⟩⟩ <;>
      simp [scrape, h, initialState]
  · have hne : get_category_urls maxC site ≠ [] := by
      intro hh
      rw [hh] at h
      exact h rfl
    refine ⟨fun _ => ?_, fun heq => absurd heq hne⟩
    obtain ⟨es, hes, hnc⟩ := noclear_scrapeLoop net maxB
      (get_category_urls maxC site).length
      ((get_category_urls maxC site).drop (start_category_idx resume cpRead))
      (start_category_idx resume cpRead) (initialState resume cpRead mdRead fs0)
    have hscr : scrape net maxC maxB resume site cpRead mdRead fs0
        = finalize (scrapeLoop net maxB (get_category_urls maxC site).length
            ((get_category_urls maxC site).drop (start_category_idx resume cpRead))
            (start_category_idx resume cpRead)
            (initialState resume cpRead mdRead fs0)) := by
      simp [scrape, h]
    have h0 : (initialState resume cpRead mdRead fs0).events = [] := rfl
    refine ⟨?_, ?_, ?_⟩
    · rw [hscr, finalize_events, hes, h0, List.nil_append, List.count_append]
      simp [List.count_eq_zero.mpr hnc]
    · rw [hscr, finalize_events, hes, h0, List.nil_append]
      exact List.getLast?_concat es
    · rw [hscr]
      exact finalize_checkpointFile _

/-- Witness for C4: the `site1` run discovers one category and ends with
the checkpoint absent. -/
theorem C4_witness :
    (scrape netAll 100 100 true site1 .missing .missing []).disk.checkpointFile
      = none :=
  ((C4_checkpoint_clear_amended netAll 100 100 true site1
    .missing .missing []).1 (by decide)).2.2

/-- Claim C5: along every run (1) the checkpoint cursors
`(current_category_idx, current_build_idx)` saved over time are
lexicographically non-decreasing, and no checkpoint save ever records
more processed builds than the metadata file persisted at that moment
(the metadata save of an appended record precedes the checkpoint save
covering it); (2) processing a list of builds saves exactly one
checkpoint per item attempt, at that item's position; (3) on the
success path the events of one item are exactly: image writes, then the
metadata save containing the appended record, then the checkpoint save. -/
theorem C5_checkpoint_cursor_invariants :
    (∀ (net : String → Bool) (maxC maxB : Nat) (resume : Bool)
        (site : List SrcCategory) (cpRead : FileRead Checkpoint)
        (mdRead : FileRead (List BuildInfo)) (fs0 : List String),
      List.Chain' lexLe
          (cpCursors (scrape net maxC maxB resume site cpRead mdRead fs0).events)
        ∧ cpAheadOk (load_metadata mdRead).length
            (scrape net maxC maxB resume site cpRead mdRead fs0).events = true)
    ∧ (∀ (net : String → Bool) (c n : Nat) (bs : List BuildInfo) (j : Nat)
        (st : ScrapeState),
      cpCursors (processBuilds net c n bs j st).events
        = cpCursors st.events ++ itemCursors c j bs.length)
    ∧ (∀ (net : String → Bool) (c j n : Nat) (b : BuildInfo) (st : ScrapeState),
      (processBuild net c j n { b with raises := false } st).events
        = st.events
          ++ (download_all_images_for_build net st.disk.images
                { b with raises := false }
                st.results.total_builds).written.map Event.writeImage
          ++ [Event.saveMetadata (st.metadata
                ++ [(download_all_images_for_build net st.disk.images
                      { b with raises := false }
                      st.results.total_builds).build]),
              Event.saveCheckpoint ⟨c, j, n,
                (st.metadata
                  ++ [(download_all_images_for_build net st.disk.images
                        { b with raises := false }
                        st.results.total_builds).build]).length⟩]) := by
  refine ⟨?_, ?_, ?_⟩
  · intro net maxC maxB resume site cpRead mdRead fs0
    refine ⟨?_, (stInv_scrape net maxC maxB resume site cpRead mdRead fs0).2.2⟩
    unfold scrape
    by_cases h : (get_category_urls maxC site).isEmpty
    · simp [h, initialState, cpCursors]
    · simp only [h, Bool.false_eq_true, if_false]
      have hfin : ∀ st : ScrapeState,
          cpCursors (finalize st).events = cpCursors st.events := by
        intro st
        rw [finalize_events, cpCursors_append]
        simp [cpCursors]
      rw [hfin]
      have h0 : List.Chain' lexLe
          (cpCursors (initialState resume cpRead mdRead fs0).events) := by
        simp [initialState, cpCursors]
      have h1 : ∀ p ∈ cpCursors (initialState resume cpRead mdRead fs0).events,
          p.1 < start_category_idx resume cpRead := by
        simp [initialState, cpCursors]
      exact (scrapeLoop_chain net maxB (get_category_urls maxC site).length
        ((get_category_urls maxC site).drop (start_category_idx resume cpRead))
        (start_category_idx resume cpRead) (initialState resume cpRead mdRead fs0)
        h0 h1).1
  · exact fun net c n bs j st => cpCursors_processBuilds net c n bs j st
  · intro net c j n b st
    simp [processBuild, save_checkpoint, emits, List.append_assoc]

/-- Claim C6 counterexample: a resumed run that finds zero categories
returns a summary whose `total_builds` equals the number of previously
loaded records (here 2), not 0: `scrape` sets
`results['total_builds'] = len(self.metadata)` before fetching the
category list (scraper.py:467-471). -/
theorem C6_counterexample :
    (scrape netAll 100 100 true []
      (.ok ⟨0, 0, 3, 2⟩)
      (.ok [⟨"A", "u", "c", ["t"], ["i"], false, [], 0, ""⟩,
            ⟨"B", "u2", "c", ["t"], ["i"], false, [], 0, ""⟩]) []).results.total_builds
      = 2
    ∧ ¬ ((scrape netAll 100 100 true []
        (.ok ⟨0, 0, 3, 2⟩)
        (.ok [⟨"A", "u", "c", ["t"], ["i"], false, [], 0, ""⟩,
              ⟨"B", "u2", "c", ["t"], ["i"], false, [], 0, ""⟩]) []).results.total_builds
        = 0) := by
  decide

/-- Claim C6 (amended): when zero category links are parsed the run
returns immediately in its initial state: no disk operation is
performed and the summary carries zero successful/failed/image counts,
with `total_builds` equal to the number of records reloaded from the
metadata file (0 on a fresh run).  This is the only early-return path:
with at least one category the run always reaches the final checkpoint
clear. -/
theorem C6_zero_categories_amended :
    ∀ (net : String → Bool) (maxC maxB : Nat) (resume : Bool)
      (site : List SrcCategory) (cpRead : FileRead Checkpoint)
      (mdRead : FileRead (List BuildInfo)) (fs0 : List String),
      (get_category_urls maxC site = [] →
        scrape net maxC maxB resume site cpRead mdRead fs0
            = initialState resume cpRead mdRead fs0
        ∧ (scrape net maxC maxB resume site cpRead mdRead fs0).events = []
        ∧ (scrape net maxC maxB resume site cpRead mdRead fs0).results.successful_builds = 0
        ∧ (scrape net maxC maxB resume site cpRead mdRead fs0).results.failed_builds = 0
        ∧ (scrape net maxC maxB resume site cpRead mdRead fs0).results.total_images_downloaded = 0
        ∧ (scrape net maxC maxB resume site cpRead mdRead fs0).results.total_builds
            = (initialMetadata resume cpRead mdRead).length)
      ∧ (get_category_urls maxC site ≠ [] →
          Event.clearCheckpoint
            ∈ (scrape net maxC maxB resume site cpRead mdRead fs0).events) := by
  intro net maxC maxB resume site cpRead mdRead fs0
  by_cases h : (get_category_urls maxC site).isEmpty
  · refine ⟨fun _ => ?_, fun hne => absurd (List.isEmpty_iff.mp h) hne⟩
    have hs : scrape net maxC maxB resume site cpRead mdRead fs0
        = initialState resume cpRead mdRead fs0 := by
      simp [scrape, h]
    exact ⟨hs, by rw [hs]; rfl, by rw [hs]; rfl, by rw [hs]; rfl,
      by rw [hs]; rfl, by rw [hs]; rfl⟩
  · have hne : get_category_urls maxC site ≠ [] := by
      intro hh
      rw [hh] at h
      exact h rfl
    refine ⟨fun heq => absurd heq hne, fun _ => ?_⟩
    have hscr : scrape net maxC maxB resume site cpRead mdRead fs0
        = finalize (scrapeLoop net maxB (get_category_urls maxC site).length
            ((get_category_urls maxC site).drop (start_category_idx resume cpRead))
            (start_category_idx resume cpRead)
            (initialState resume cpRead mdRead fs0)) := by
      simp [scrape, h]
    rw [hscr, finalize_events]
    exact List.mem_append_right _ (List.mem_singleton_self _)

/-- Witness for C6: a fresh run over an empty site returns its initial
state. -/
theorem C6_witness :
    scrape netAll 100 100 true [] .missing .missing []
      = initialState true .missing .missing [] :=
  ((C6_zero_categories_amended netAll 100 100 true [] .missing .missing []).1 rfl).1

set_option maxRecDepth 8000 in
/-- Claim C7: an exception while processing a single item increments the
failed count by one, saves a checkpoint at the current position, and the
loop continues with the next item; a category-level exception saves a
checkpoint with `current_build_idx = 0` and the loop continues with the
next category — neither aborts the run.  The first three conjuncts are
the step equations of the loops; the last conjuncts evaluate `run7`,
where an item failure and a category failure still leave the later items
`C` and `E` processed. -/
theorem C7_failure_isolation :
    (∀ (net : String → Bool) (c n : Nat) (bs : List BuildInfo) (j : Nat)
        (b : BuildInfo) (st : ScrapeState),
      processBuilds net c n ({ b with raises := true } :: bs) j st
        = processBuilds net c n bs (j + 1)
            (save_checkpoint c j n
              { st with results :=
                  { st.results with
                      total_builds := st.results.total_builds + 1,
                      failed_builds := st.results.failed_builds + 1 } }))
    ∧ (∀ (net : String → Bool) (maxB n c : Nat) (cat : SrcCategory)
        (st : ScrapeState),
      processCategory net maxB n c { cat with fails := true } st
        = save_checkpoint c 0 n st)
    ∧ (∀ (net : String → Bool) (maxB n : Nat) (cat : SrcCategory)
        (rest : List SrcCategory) (c : Nat) (st : ScrapeState),
      scrapeLoop net maxB n (cat :: rest) c st
        = scrapeLoop net maxB n rest (c + 1)
            (processCategory net maxB n c cat st))
    ∧ run7.results.total_builds = 4
    ∧ run7.results.successful_builds = 3
    ∧ run7.results.failed_builds = 1
    ∧ run7.metadata.map (fun r => r.title) = ["A", "C", "E"]
    ∧ cpCursors run7.events = [(0, 0), (0, 1), (0, 2), (1, 0), (2, 0)] := by
  refine ⟨fun net c n bs j b st => rfl, fun net maxB n c cat st => rfl,
    fun net maxB n cat rest c st => rfl, ?_, ?_, ?_, ?_, ?_⟩ <;> decide

/-- Claim C8 counterexample: acquiring the same `(url, path)` twice is
not always a single network fetch: when the first fetch fails no file is
written, so the second acquisition fetches again — two fetches. -/
theorem C8_counterexample :
    acquireTwice netNone [] "u" "p" = 2
    ∧ ¬ acquireTwice netNone [] "u" "p" = 1 := by
  decide

/-- Claim C8 (amended): the image acquirer skips the network fetch
entirely when the destination file exists (scraper.py:386-390), so
acquiring the same `(url, path)` twice performs exactly one fetch
provided the first acquisition succeeds; and a per-image failure only
skips that image — the remaining URLs of the same item are still
attempted (scraper.py:393-399). -/
theorem C8_idempotent_amended :
    (∀ (net : String → Bool) (fs : List String) (url path : String),
      path ∈ fs → acquire_image net fs url path = ⟨0, some path, false⟩)
    ∧ (∀ (net : String → Bool) (fs : List String) (url path : String),
      path ∉ fs → net url = true → acquireTwice net fs url path = 1)
    ∧ (∀ (net : String → Bool) (slug u : String) (rest : List String)
        (i : Nat) (fs : List String),
      net u = false → image_path slug i ∉ fs →
      download_images_loop net slug (u :: rest) i fs
        = { download_images_loop net slug rest (i + 1) fs with
            fetches := 1 + (download_images_loop net slug rest (i + 1) fs).fetches }) := by
  refine ⟨?_, ?_, ?_⟩
  · intro net fs url path h
    simp [acquire_image, h]
  · intro net fs url path h hn
    simp [acquireTwice, acquire_image, h, hn]
  · intro net slug u rest i fs hn hp
    simp [download_images_loop, acquire_image, hp, hn]

/-- Witness for C8: the three amended statements evaluated on concrete
file systems and oracles. -/
theorem C8_witness :
    acquire_image netAll ["p"] "u" "p" = ⟨0, some "p", false⟩
    ∧ acquireTwice netAll [] "u" "p" = 1
    ∧ download_images_loop netNone "s" ["u"] 0 []
        = { download_images_loop netNone "s" [] 1 [] with
            fetches := 1 + (download_images_loop netNone "s" [] 1 []).fetches } :=
  ⟨C8_idempotent_amended.1 netAll ["p"] "u" "p" (by decide),
   C8_idempotent_amended.2.1 netAll [] "u" "p" (by decide) rfl,
   C8_idempotent_amended.2.2 netNone "s" "u" [] 0 [] rfl (by decide)⟩

/-- Claim C9: loading the checkpoint and loading existing metadata fail
soft: both are total functions of the read outcome (no error
propagation), a missing or corrupt checkpoint file loads as the empty
checkpoint, a missing or corrupt metadata file loads as the empty
sequence, and a value is returned only when the file parses. -/
theorem C9_loads_fail_soft :
    load_checkpoint .missing = none
    ∧ load_checkpoint .corrupt = none
    ∧ load_metadata .missing = []
    ∧ load_metadata .corrupt = []
    ∧ (∀ r : FileRead Checkpoint,
        load_checkpoint r = none
        ∨ ∃ c, r = .ok c ∧ load_checkpoint r = some c)
    ∧ (∀ m : FileRead (List BuildInfo),
        load_metadata m = [] ∨ ∃ l, m = .ok l ∧ load_metadata m = l) := by
  refine ⟨rfl, rfl, rfl, rfl, ?_, ?_⟩
  · intro r
    cases r with
    | missing => exact Or.inl rfl
    | corrupt => exact Or.inl rfl
    | ok c => exact Or.inr ⟨c, rfl, rfl⟩
  · intro m
    cases m with
    | missing => exact Or.inl rfl
    | corrupt => exact Or.inl rfl
    | ok l => exact Or.inr ⟨l, rfl, rfl⟩

/-- Claim C10: on every fresh run (resume disabled or no checkpoint
parsed, so the total starts at zero) the returned summary satisfies
`successful_builds + failed_builds = total_builds`: each counted item
increments exactly one of the two outcome counters
(scraper.py:503-516, 527-529). -/
theorem C10_fresh_run_counter_partition :
    ∀ (net : String → Bool) (maxC maxB : Nat) (resume : Bool)
      (site : List SrcCategory) (cpRead : FileRead Checkpoint)
      (mdRead : FileRead (List BuildInfo)) (fs0 : List String),
      (resume = false ∨ load_checkpoint cpRead = none) →
      (scrape net maxC maxB resume site cpRead mdRead fs0).results.successful_builds
          + (scrape net maxC maxB resume site cpRead mdRead fs0).results.failed_builds
        = (scrape net maxC maxB resume site cpRead mdRead fs0).results.total_builds := by
  intro net maxC maxB resume site cpRead mdRead fs0 hfresh
  have hinit : (initialState resume cpRead mdRead fs0).results.successful_builds
      + (initialState resume cpRead mdRead fs0).results.failed_builds
    = (initialState resume cpRead mdRead fs0).results.total_builds := by
    rcases hfresh with h | h <;> simp [initialState, initialMetadata, h]
  unfold scrape
  by_cases h : (get_category_urls maxC site).isEmpty
  · simpa [h] using hinit
  · simp only [h, Bool.false_eq_true, if_false]
    exact counts_finalize _ (counts_scrapeLoop net maxB
      (get_category_urls maxC site).length
      ((get_category_urls maxC site).drop (start_category_idx resume cpRead))
      (start_category_idx resume cpRead)
      (initialState resume cpRead mdRead fs0) hinit)

set_option maxRecDepth 8000 in
/-- Witness for C10: the fresh `site1` run partitions its two items into
successes and failures. -/
theorem C10_witness :
    fullRun.results.successful_builds + fullRun.results.failed_builds
      = fullRun.results.total_builds :=
  C10_fresh_run_counter_partition netAll 100 100 true site1 .missing .missing []
    (Or.inr rfl)
